import Mathlib

set_option autoImplicit false

/-!
Shallow embedding of the expiring_gocache decorator (src/store.go) and of the
MapStore test double (the test file of the repository). Time is modelled as an
absolute instant in nanoseconds (`Int`), matching the Go types `time.Time` and
`time.Duration`; `time.Now()` becomes an explicit `now` argument. A Go
`interface{}` cache value is modelled by `Value`; a nil Go interface by
`Value.nil`. Each decorator operation returns, besides its Go results, the
post state of the backing store and the list of backing-store calls it
issued, so frame properties are statable. A nil backing-store handle is
modelled by `Option`; an operation that would dereference a nil handle
returns `none` (a Go panic).
-/

namespace ExpiringGocache

/-- A Go `interface{}` value held in a cache: the nil interface, an arbitrary
foreign payload, or the `wrappedValue` envelope of the decorator pairing an
absolute `expireAt` instant with a payload. -/
inductive Value : Type where
  | nil : Value
  | raw : String → Value
  | wrapped : Int → Value → Value
  deriving DecidableEq, Repr

/-- Go `error` values that appear in this development:
`ValueExpiredError` of the decorator, the miss error of the test MapStore, and arbitrary other
backing-store errors. -/
inductive Err : Type where
  | valueExpired : Err
  | miss : Err
  | other : Nat → Err
  deriving DecidableEq, Repr

/-- `ExpiringStoreType` constant of src/store.go. -/
def ExpiringStoreType : String := "expiring"

/-- Go `time.Hour` in nanoseconds. -/
def Hour : Int := 3600000000000

/-- `DefaultExpiration = 720 * time.Hour` of src/store.go. -/
def DefaultExpiration : Int := 720 * Hour

/-- `ValueExpiredError` of src/store.go. -/
def ValueExpiredError : Err := Err.valueExpired

/-- `store.Options` of the gocache library: the decorator only ever reads
its expiration; the cost field stands for the other forwarded options. -/
structure Options : Type where
  expiration : Int
  cost : Int
  deriving DecidableEq, Repr

/-- `Options.ExpirationValue()` of the gocache library. -/
def Options.ExpirationValue (o : Options) : Int := o.expiration

/-- `store.InvalidateOptions` of the gocache library, pass-through data. -/
structure InvalidateOptions : Type where
  tags : List String
  deriving DecidableEq, Repr

/-- A backing-store call issued by the decorator, recorded in traces. -/
inductive Call (κ : Type) : Type where
  | get : κ → Call κ
  | set : κ → Value → Option Options → Call κ
  | delete : κ → Call κ
  | invalidate : InvalidateOptions → Call κ
  | clear : Call κ
  deriving DecidableEq, Repr

/-- Whether a backing-store call can change backing-store state: everything
but a read. -/
def Call.isMutation {κ : Type} : Call κ → Bool
  | Call.get _ => false
  | _ => true

/-- `store.StoreInterface`: a backing store over key type `κ` with state
type `σ`. Each operation returns its Go results and the successor state.
`clear` is `some` exactly when the concrete store also implements the
optional `clearer` interface of src/store.go. -/
structure Backing (κ σ : Type) : Type where
  get : σ → κ → (Value × Option Err) × σ
  set : σ → κ → Value → Option Options → Option Err × σ
  delete : σ → κ → Option Err × σ
  invalidate : σ → InvalidateOptions → Option Err × σ
  getTypeB : String
  clear : Option (σ → Option Err × σ)

/-- The decorator `Store` of src/store.go. The backing handle is `Option`al
because Go allows a nil `store.StoreInterface`. -/
structure Store (κ σ : Type) : Type where
  expiration : Int
  store : Option (Backing κ σ)

variable {κ σ : Type}

/-- `New` of src/store.go: default expiration 720h, overridden by
`options.ExpirationValue()` whenever `options` is non-nil. -/
def New (st : Option (Backing κ σ)) (options : Option Options) : Store κ σ :=
  let expiration : Int :=
    match options with
    | none => DefaultExpiration
    | some o => o.ExpirationValue
  { expiration := expiration, store := st }

/-- `Store.Get` of src/store.go: read from the backing store; propagate an
error or nil value unchanged; pass a non-wrapped value through; unwrap a
wrapped value, best-effort deleting it and signalling `ValueExpiredError`
when its `expireAt` is strictly before `now`. -/
def Store.Get (es : Store κ σ) (key : κ) (now : Int) (s : σ) :
    Option ((Value × Option Err) × σ × List (Call κ)) :=
  match es.store with
  | none => none
  | some b =>
    let r := b.get s key
    if r.1.2.isSome ∨ r.1.1 = Value.nil then
      some (r.1, r.2, [Call.get key])
    else
      match r.1.1 with
      | Value.wrapped expireAt payload =>
        if expireAt < now then
          some ((payload, some ValueExpiredError), (b.delete r.2 key).2,
            [Call.get key, Call.delete key])
        else
          some ((payload, none), r.2, [Call.get key])
      | v => some ((v, none), r.2, [Call.get key])

/-- `Store.Set` of src/store.go: wrap the value with
`expireAt = now + ttl`, the ttl being the per-call expiration when supplied
and strictly positive, else the configured expiration of the decorator, and
forward the wrapped value with the original options to the backing store. -/
def Store.Set (es : Store κ σ) (key : κ) (value : Value)
    (options : Option Options) (now : Int) (s : σ) :
    Option (Option Err × σ × List (Call κ)) :=
  match es.store with
  | none => none
  | some b =>
    let expireAt : Int :=
      match options with
      | some o =>
        if o.ExpirationValue > 0 then now + o.ExpirationValue
        else now + es.expiration
      | none => now + es.expiration
    let r := b.set s key (Value.wrapped expireAt value) options
    some (r.1, r.2, [Call.set key (Value.wrapped expireAt value) options])

/-- `Store.Delete` of src/store.go: pure pass-through. -/
def Store.Delete (es : Store κ σ) (key : κ) (s : σ) :
    Option (Option Err × σ × List (Call κ)) :=
  match es.store with
  | none => none
  | some b => some ((b.delete s key).1, (b.delete s key).2, [Call.delete key])

/-- `Store.Invalidate` of src/store.go: pure pass-through. -/
def Store.Invalidate (es : Store κ σ) (options : InvalidateOptions) (s : σ) :
    Option (Option Err × σ × List (Call κ)) :=
  match es.store with
  | none => none
  | some b =>
    some ((b.invalidate s options).1, (b.invalidate s options).2,
      [Call.invalidate options])

/-- `Store.Clear` of src/store.go: probe the backing store for the optional
`clearer` capability; invoke it when present, otherwise return nil without
touching the store. A type assertion on a nil Go interface fails rather
than panics, so a nil handle also yields the silent no-op. -/
def Store.Clear (es : Store κ σ) (s : σ) :
    Option (Option Err × σ × List (Call κ)) :=
  match es.store with
  | none => some (none, s, [])
  | some b =>
    match b.clear with
    | some f => some ((f s).1, (f s).2, [Call.clear])
    | none => some (none, s, [])

/-- `Store.GetType` of src/store.go: the fixed decorator identifier. -/
def Store.GetType (es : Store κ σ) : String := ExpiringStoreType

/-- Association-list read, modelling a Go map lookup. -/
def getA [DecidableEq κ] : List (κ × Value) → κ → Option Value
  | [], _ => none
  | (k, v) :: t, key => if key = k then some v else getA t key

/-- Association-list write, modelling a Go map assignment. -/
def setA [DecidableEq κ] : List (κ × Value) → κ → Value → List (κ × Value)
  | [], key, value => [(key, value)]
  | (k, v) :: t, key, value =>
    if key = k then (key, value) :: t else (k, v) :: setA t key value

/-- Association-list removal, modelling a Go map delete. -/
def delA [DecidableEq κ] : List (κ × Value) → κ → List (κ × Value)
  | [], _ => []
  | (k, v) :: t, key => if key = k then delA t key else (k, v) :: delA t key

/-- `MapStore` of the test file of the repository: a Go map plus per-operation
call counters. -/
structure MapStore (κ : Type) : Type where
  cache : List (κ × Value)
  setCount : Nat
  getCount : Nat
  deleteCount : Nat
  clearCount : Nat
  invalidateCount : Nat
  deriving DecidableEq, Repr

/-- `MapStoreMiss` of the test file of the repository. -/
def MapStoreMiss : Err := Err.miss

/-- `MapStore.Get` of the test file: count the call, return the mapped
value, or the zero value of the map (nil) together with `MapStoreMiss`. -/
def MapStore.Get [DecidableEq κ] (ms : MapStore κ) (key : κ) :
    (Value × Option Err) × MapStore κ :=
  let ms1 := { ms with getCount := ms.getCount + 1 }
  match getA ms.cache key with
  | some v => ((v, none), ms1)
  | none => ((Value.nil, some MapStoreMiss), ms1)

/-- `MapStore.Set` of the test file: count the call and assign the key. -/
def MapStore.Set [DecidableEq κ] (ms : MapStore κ) (key : κ) (value : Value)
    (options : Option Options) : Option Err × MapStore κ :=
  (none, { ms with cache := setA ms.cache key value,
                   setCount := ms.setCount + 1 })

/-- `MapStore.Delete` of the test file: count the call and drop the key. -/
def MapStore.Delete [DecidableEq κ] (ms : MapStore κ) (key : κ) :
    Option Err × MapStore κ :=
  (none, { ms with cache := delA ms.cache key,
                   deleteCount := ms.deleteCount + 1 })

/-- `MapStore.Invalidate` of the test file: count the call only. -/
def MapStore.Invalidate (ms : MapStore κ) (options : InvalidateOptions) :
    Option Err × MapStore κ :=
  (none, { ms with invalidateCount := ms.invalidateCount + 1 })

/-- `MapStore.Clear` of the test file: count the call and empty the map. -/
def MapStore.Clear (ms : MapStore κ) : Option Err × MapStore κ :=
  (none, { ms with cache := [], clearCount := ms.clearCount + 1 })

/-- The `MapStore` seen through the `Backing` interface; it implements the
optional `clearer` capability. -/
def mapBacking (κ : Type) [DecidableEq κ] : Backing κ (MapStore κ) where
  get := MapStore.Get
  set := MapStore.Set
  delete := MapStore.Delete
  invalidate := MapStore.Invalidate
  getTypeB := "MapStore"
  clear := some MapStore.Clear

/-- `NonClearable` of the test file: a stateless backing store without the
`clearer` capability. -/
def nonClearable (κ : Type) : Backing κ Unit where
  get := fun s _ => ((Value.nil, none), s)
  set := fun s _ _ _ => (none, s)
  delete := fun s _ => (none, s)
  invalidate := fun s _ => (none, s)
  getTypeB := "non-clearable"
  clear := none

/-- The empty MapStore every test starts from. -/
def ms0 : MapStore String :=
  { cache := [], setCount := 0, getCount := 0, deleteCount := 0,
    clearCount := 0, invalidateCount := 0 }

/-- A MapStore already holding a wrapped value that expires at instant 5. -/
def msW : MapStore String :=
  { ms0 with cache := [("k", Value.wrapped 5 (Value.raw "v"))] }

/-- A MapStore already holding a foreign, never-wrapped value. -/
def msF : MapStore String :=
  { ms0 with cache := [("k", Value.raw "legacy")] }

/-- Refinement-side ttl, written after the words of the spec: the per-call
expiration when one is supplied and strictly positive, else the default. -/
def ttlOfSpec (options : Option Options) (dflt : Int) : Int :=
  match options with
  | some o => if o.expiration > 0 then o.expiration else dflt
  | none => dflt

theorem getA_setA_same [DecidableEq κ] (l : List (κ × Value)) (k : κ)
    (v : Value) : getA (setA l k v) k = some v := by
  induction l with
  | nil => simp [setA, getA]
  | cons hd t ih =>
    by_cases hk : k = hd.1
    · simp [setA, hk, getA]
    · simp [setA, hk, getA, ih]

theorem getA_delA_same [DecidableEq κ] (l : List (κ × Value)) (k : κ) :
    getA (delA l k) k = none := by
  induction l with
  | nil => simp [delA, getA]
  | cons hd t ih =>
    obtain ⟨k1, v1⟩ := hd
    by_cases hk : k = k1
    · subst hk
      simp [delA, ih]
    · simp [delA, hk, getA, ih]

/-- Claim C1: whenever the backing read yields a wrapped value with no
error, Get returns the unwrapped payload; the returned error is
`ValueExpiredError` exactly when `expireAt` is strictly before `now`, and
in that case Get issues a single best-effort delete against the backing
store whose own error never surfaces (the result carries only the new
state, never the delete error). -/
theorem C1_get_wrapped {κ σ : Type} (b : Backing κ σ) (exp : Int) (key : κ)
    (now : Int) (s : σ) (e : Int) (p : Value)
    (h : (b.get s key).1 = (Value.wrapped e p, none)) :
    Store.Get { expiration := exp, store := some b } key now s =
      some ((p, if e < now then some ValueExpiredError else none),
        (if e < now then (b.delete (b.get s key).2 key).2
          else (b.get s key).2),
        (if e < now then [Call.get key, Call.delete key]
          else [Call.get key])) := by
  by_cases hlt : e < now <;> simp [Store.Get, h, hlt]

/-- Witness for C1 at a concrete expired read: the stored envelope expires
at 5, the read happens at 10, so the payload comes back with
`ValueExpiredError` and the key is deleted. -/
theorem C1_get_wrapped_witness :
    Store.Get { expiration := 0, store := some (mapBacking String) } "k" 10
        msW =
      some ((Value.raw "v", some ValueExpiredError),
        { ms0 with getCount := 1, deleteCount := 1 },
        [Call.get "k", Call.delete "k"]) :=
  (C1_get_wrapped (mapBacking String) 0 "k" 10 msW 5 (Value.raw "v")
    rfl).trans (by decide)

/-- Claim C2: the expiry a Set stores is `now + ttl`, where the ttl is the
per-call expiration when supplied and strictly positive, and the configured
default otherwise (a zero or negative override is ignored); the wrapped
value with exactly that expiry is what reaches the backing store. -/
theorem C2_set_expiry {κ σ : Type} (b : Backing κ σ) (exp : Int) (key : κ)
    (value : Value) (options : Option Options) (now : Int) (s : σ) :
    Store.Set { expiration := exp, store := some b } key value options now
        s =
      some ((b.set s key
          (Value.wrapped (now + ttlOfSpec options exp) value) options).1,
        (b.set s key
          (Value.wrapped (now + ttlOfSpec options exp) value) options).2,
        [Call.set key
          (Value.wrapped (now + ttlOfSpec options exp) value) options]) := by
  cases options with
  | none => simp [Store.Set, ttlOfSpec]
  | some o =>
    by_cases hp : o.expiration > 0 <;>
      simp [Store.Set, ttlOfSpec, Options.ExpirationValue, hp]

/-- Claim C5: when the backing read returns an error or a nil value, Get
propagates that pair unchanged and issues no further backing-store call
(the trace is the single read). -/
theorem C5_get_propagates {κ σ : Type} (b : Backing κ σ) (exp : Int)
    (key : κ) (now : Int) (s : σ)
    (h : ((b.get s key).1.2).isSome = true ∨
      (b.get s key).1.1 = Value.nil) :
    Store.Get { expiration := exp, store := some b } key now s =
      some ((b.get s key).1, (b.get s key).2, [Call.get key]) := by
  rcases h with h | h <;> simp [Store.Get, h]

/-- Witness for C5 at a concrete miss: reading an absent key from the
MapStore propagates the (nil, miss) pair untouched. -/
theorem C5_get_propagates_witness :
    Store.Get { expiration := 0, store := some (mapBacking String) } "k" 0
        ms0 =
      some ((Value.nil, some MapStoreMiss), { ms0 with getCount := 1 },
        [Call.get "k"]) :=
  (C5_get_propagates (mapBacking String) 0 "k" 0 ms0
    (Or.inl rfl)).trans (by decide)

/-- Claim C6: a successful backing read of a non-nil value that is not a
wrapped envelope passes through as-is, with no error and no expired
signal, whatever its shape. -/
theorem C6_get_passthrough {κ σ : Type} (b : Backing κ σ) (exp : Int)
    (key : κ) (now : Int) (s : σ) (v : Value)
    (h : (b.get s key).1 = (v, none)) (hnil : v ≠ Value.nil)
    (hw : ∀ e p, v ≠ Value.wrapped e p) :
    Store.Get { expiration := exp, store := some b } key now s =
      some ((v, none), (b.get s key).2, [Call.get key]) := by
  cases v with
  | nil => exact absurd rfl hnil
  | raw str => simp [Store.Get, h]
  | wrapped e p => exact absurd rfl (hw e p)

/-- Witness for C6 at a concrete foreign value: a legacy raw entry comes
back unchanged with no error. -/
theorem C6_get_passthrough_witness :
    Store.Get { expiration := 0, store := some (mapBacking String) } "k" 0
        msF =
      some ((Value.raw "legacy", none), { msF with getCount := 1 },
        [Call.get "k"]) :=
  (C6_get_passthrough (mapBacking String) 0 "k" 0 msF (Value.raw "legacy")
    rfl (by decide) (fun e p hc => Value.noConfusion hc)).trans (by decide)

/-- Claim C3, counterexample: a configuration that is supplied but gives no
expiration (its expiration field is the Go zero value 0) does NOT yield the
720 hour default: the decorator keeps expiration 0, and a Set with no
per-call expiration then stores `expireAt = now + 0`, not
`now + 720 hours`. -/
theorem C3_default_counterexample :
    (New (some (mapBacking String))
        (some { expiration := 0, cost := 0 })).expiration ≠
      DefaultExpiration ∧
    Store.Set
        (New (some (mapBacking String)) (some { expiration := 0, cost := 0 }))
        "k" (Value.raw "v") none 0 ms0 =
      some (none,
        { ms0 with
            cache := [("k", Value.wrapped 0 (Value.raw "v"))]
            setCount := 1 },
        [Call.set "k" (Value.wrapped 0 (Value.raw "v")) none]) ∧
    (0 : Int) ≠ 0 + DefaultExpiration :=
  ⟨by decide, by decide, by decide⟩

/-- Claim C3 as amended: the 720 hour default applies exactly when the
whole configuration is absent (nil); a supplied configuration fixes the
default to its own expiration value, even zero or negative. On a decorator
built with a nil configuration, a Set without a strictly positive per-call
expiration stores `expireAt = now + 720 hours`. -/
theorem C3_default_amended {κ σ : Type} (st : Option (Backing κ σ))
    (o : Options) (b : Backing κ σ) (key : κ) (value : Value) (now : Int)
    (s : σ) :
    (New st none).expiration = DefaultExpiration ∧
    DefaultExpiration = 720 * Hour ∧
    (New st (some o)).expiration = o.ExpirationValue ∧
    Store.Set (New (some b) none) key value none now s =
      some ((b.set s key (Value.wrapped (now + 720 * Hour) value) none).1,
        (b.set s key (Value.wrapped (now + 720 * Hour) value) none).2,
        [Call.set key (Value.wrapped (now + 720 * Hour) value) none]) ∧
    (o.expiration ≤ 0 →
      Store.Set (New (some b) none) key value (some o) now s =
        some ((b.set s key (Value.wrapped (now + 720 * Hour) value)
            (some o)).1,
          (b.set s key (Value.wrapped (now + 720 * Hour) value)
            (some o)).2,
          [Call.set key (Value.wrapped (now + 720 * Hour) value)
            (some o)])) := by
  refine ⟨rfl, rfl, rfl, ?_, ?_⟩
  · simp [Store.Set, New, DefaultExpiration]
  · intro hle
    simp [Store.Set, New, DefaultExpiration, Options.ExpirationValue,
      not_lt.mpr hle]

/-- Witness for the amended C3: a nil configuration gives the 720 hour
default, and a Set with a negative per-call expiration still stores
`now + 720 hours`. -/
theorem C3_default_amended_witness :
    (New (some (mapBacking String)) none).expiration = DefaultExpiration ∧
    Store.Set (New (some (mapBacking String)) none) "k" (Value.raw "v")
        (some { expiration := -5, cost := 0 }) 0 ms0 =
      some (none,
        { ms0 with
            cache := [("k", Value.wrapped (0 + 720 * Hour) (Value.raw "v"))]
            setCount := 1 },
        [Call.set "k" (Value.wrapped (0 + 720 * Hour) (Value.raw "v"))
          (some { expiration := -5, cost := 0 })]) :=
  ⟨(C3_default_amended (some (mapBacking String))
      { expiration := -5, cost := 0 } (mapBacking String) "k"
      (Value.raw "v") 0 ms0).1,
    ((C3_default_amended (some (mapBacking String))
      { expiration := -5, cost := 0 } (mapBacking String) "k"
      (Value.raw "v") 0 ms0).2.2.2.2 (by decide)).trans (by decide)⟩

/-- Claim C7: whatever Set sends to the backing store, the stored value is
a wrapped envelope around the original payload; no input makes Set store
the raw payload directly. -/
theorem C7_set_always_wraps {κ σ : Type} (es : Store κ σ) (key : κ)
    (value : Value) (options : Option Options) (now : Int) (s : σ)
    (out : Option Err × σ × List (Call κ))
    (h : Store.Set es key value options now s = some out) :
    ∃ expireAt,
      out.2.2 = [Call.set key (Value.wrapped expireAt value) options] := by
  cases hst : es.store with
  | none => simp [Store.Set, hst] at h
  | some b =>
    cases options with
    | none =>
      refine ⟨now + es.expiration, ?_⟩
      simp [Store.Set, hst] at h
      simp [← h]
    | some o =>
      by_cases hp : o.ExpirationValue > 0
      · refine ⟨now + o.ExpirationValue, ?_⟩
        simp [Store.Set, hst, hp] at h
        simp [← h]
      · refine ⟨now + es.expiration, ?_⟩
        simp [Store.Set, hst, hp] at h
        simp [← h]

/-- Witness for C7 at a concrete write: the call recorded against the
backing store carries a wrapped envelope, not the raw payload. -/
theorem C7_set_always_wraps_witness :
    ∃ out, Store.Set { expiration := 7, store := some (mapBacking String) }
        "k" (Value.raw "v") none 0 ms0 = some out ∧
      ∃ expireAt,
        out.2.2 = [Call.set "k" (Value.wrapped expireAt (Value.raw "v"))
          none] :=
  ⟨(none,
    { ms0 with
        cache := [("k", Value.wrapped (0 + 7) (Value.raw "v"))]
        setCount := 1 },
    [Call.set "k" (Value.wrapped (0 + 7) (Value.raw "v")) none]), rfl,
    C7_set_always_wraps { expiration := 7, store := some (mapBacking String) }
      "k" (Value.raw "v") none 0 ms0 _ rfl⟩

/-- Claim C8: Clear invokes the clear-all capability and returns its result
when the backing store has one, and otherwise is a silent no-op returning
nil with the state untouched and no backing-store call issued. -/
theorem C8_clear_probe {κ σ : Type} (b : Backing κ σ) (exp : Int) (s : σ) :
    Store.Clear { expiration := exp, store := some b } s =
      some (match b.clear with
        | some f => ((f s).1, (f s).2, [Call.clear])
        | none => ((none : Option Err), s, ([] : List (Call κ)))) := by
  cases h : b.clear <;> simp [Store.Clear, h]

/-- Claim C9: the only mutating backing-store call Get can issue is the
single best-effort delete, and it is issued exactly when the read succeeds
with a wrapped value whose expiry is strictly before now; every other
branch issues the read alone. -/
theorem C9_get_frame {κ σ : Type} (b : Backing κ σ) (exp : Int) (key : κ)
    (now : Int) (s : σ) (out : (Value × Option Err) × σ × List (Call κ))
    (h : Store.Get { expiration := exp, store := some b } key now s =
      some out) :
    out.2.2.filter Call.isMutation =
      (match (b.get s key).1 with
        | (Value.wrapped e _, none) =>
          if e < now then [Call.delete key] else []
        | _ => []) := by
  rcases hr : b.get s key with ⟨⟨v, eo⟩, s1⟩
  cases v with
  | nil =>
    cases eo with
    | none =>
      simp [Store.Get, hr] at h
      subst h
      simp [hr, Call.isMutation]
    | some err =>
      simp [Store.Get, hr] at h
      subst h
      simp [hr, Call.isMutation]
  | raw str =>
    cases eo with
    | none =>
      simp [Store.Get, hr] at h
      subst h
      simp [hr, Call.isMutation]
    | some err =>
      simp [Store.Get, hr] at h
      subst h
      simp [hr, Call.isMutation]
  | wrapped e p =>
    cases eo with
    | some err =>
      simp [Store.Get, hr] at h
      subst h
      simp [hr, Call.isMutation]
    | none =>
      by_cases hlt : e < now
      · simp [Store.Get, hr, hlt] at h
        subst h
        simp [hr, hlt, Call.isMutation]
      · simp [Store.Get, hr, hlt] at h
        subst h
        simp [hr, hlt, Call.isMutation]

/-- Witness for C9 at a concrete expired read: the mutating part of the
trace is exactly the one best-effort delete. -/
theorem C9_get_frame_witness :
    ∃ out,
      Store.Get { expiration := 0, store := some (mapBacking String) } "k"
        10 msW = some out ∧
      out.2.2.filter Call.isMutation = [Call.delete "k"] :=
  ⟨((Value.raw "v", some ValueExpiredError),
    { ms0 with getCount := 1, deleteCount := 1 },
    [Call.get "k", Call.delete "k"]), rfl,
    (C9_get_frame (mapBacking String) 0 "k" 10 msW _ rfl).trans (by decide)⟩

/-- Claim C10: construction succeeds for any handle, including the nil one,
keeping exactly the handle it was given, and GetType is the fixed constant
"expiring" on every decorator instance, computed without consulting the
backing store (here shown on an arbitrary instance, on an arbitrary
construction, and on the construction from the nil handle). -/
theorem C10_gettype_total {κ σ : Type} (es : Store κ σ)
    (st : Option (Backing κ σ)) (opts : Option Options) :
    Store.GetType es = "expiring" ∧
    (New st opts).store = st ∧
    Store.GetType (New st opts) = ExpiringStoreType ∧
    Store.GetType (New (none : Option (Backing κ σ)) none) =
      ExpiringStoreType :=
  ⟨rfl, rfl, rfl, rfl⟩

/-- Claim C4: on the MapStore backing store, a Set with a positive ttl
followed by a Get strictly later than the expiry returns the stale value
with the expired signal exactly once, and a second Get afterwards returns
the miss signal of the backing store, the first Get having deleted the
entry. -/
theorem C4_expire_once_then_miss {κ : Type} [inst : DecidableEq κ]
    (exp ttl t0 t1 t2 c : Int) (key : κ) (value : Value) (s : MapStore κ)
    (httl : 0 < ttl) (hwait : t0 + ttl < t1) :
    ∃ s1 s2 s3 tr,
      Store.Set { expiration := exp, store := some (mapBacking κ) } key
          value (some { expiration := ttl, cost := c }) t0 s =
        some (none, s1, tr) ∧
      Store.Get { expiration := exp, store := some (mapBacking κ) } key t1
          s1 =
        some ((value, some ValueExpiredError), s2,
          [Call.get key, Call.delete key]) ∧
      Store.Get { expiration := exp, store := some (mapBacking κ) } key t2
          s2 =
        some ((Value.nil, some MapStoreMiss), s3, [Call.get key]) := by
  refine ⟨{ s with
      cache := setA s.cache key (Value.wrapped (t0 + ttl) value)
      setCount := s.setCount + 1 },
    { s with
      cache := delA (setA s.cache key (Value.wrapped (t0 + ttl) value)) key
      setCount := s.setCount + 1
      getCount := s.getCount + 1
      deleteCount := s.deleteCount + 1 },
    { s with
      cache := delA (setA s.cache key (Value.wrapped (t0 + ttl) value)) key
      setCount := s.setCount + 1
      getCount := s.getCount + 1 + 1
      deleteCount := s.deleteCount + 1 },
    [Call.set key (Value.wrapped (t0 + ttl) value)
      (some { expiration := ttl, cost := c })], ?_, ?_, ?_⟩
  · simp [Store.Set, Options.ExpirationValue, httl, mapBacking,
      MapStore.Set]
  · simp [Store.Get, mapBacking, MapStore.Get, MapStore.Delete,
      getA_setA_same, hwait]
  · simp [Store.Get, mapBacking, MapStore.Get, getA_delA_same]

/-- Witness for C4: write at time 0 with ttl 1, read at time 2 to see the
expired signal with the stale value, read again at time 3 to see the miss. -/
theorem C4_expire_once_then_miss_witness :
    ∃ s1 s2 s3 tr,
      Store.Set { expiration := 0, store := some (mapBacking String) } "k"
          (Value.raw "v") (some { expiration := 1, cost := 0 }) 0 ms0 =
        some (none, s1, tr) ∧
      Store.Get { expiration := 0, store := some (mapBacking String) } "k" 2
          s1 =
        some ((Value.raw "v", some ValueExpiredError), s2,
          [Call.get "k", Call.delete "k"]) ∧
      Store.Get { expiration := 0, store := some (mapBacking String) } "k" 3
          s2 =
        some ((Value.nil, some MapStoreMiss), s3, [Call.get "k"]) :=
  C4_expire_once_then_miss 0 1 0 2 3 0 "k" (Value.raw "v") ms0 (by decide)
    (by decide)

end ExpiringGocache
